import Mathlib

/-!
Verification of the `KinshipMatrix` abstraction of the hail genetics binding
(`src/python/hail/genetics/kinshipMatrix.py`) against its specification.

The Python class is a thin proxy: construction and the five export codecs are
delegated to an engine-side `KinshipMatrix` object, whose code is not part of
the visible slice, so those operations are modelled from the specification
(§3, §4.1 of spec.md).  The parts that are visible in the Python source — the
lazily cached `key_schema` property, `sample_list`, the decorator stack
(`typecheck_method` above `write_history`), and the docstrings stating that
every export also writes a `<output>.history.txt` provenance file — are
embedded from that source directly.

Matrix entries are engine-side doubles on which this layer performs no
arithmetic; they are carried through opaquely, so the embedding keeps the
entry type as a parameter `V` together with a textual formatter `V → String`
for the text codecs.
-/

/-- Modelled from the spec: error classes of §7 (`DimensionMismatch` raised at
construction, `IOFailure` raised by exports on unwritable paths). -/
inductive KMError : Type where
  | DimensionMismatch : KMError
  | IOFailure : KMError
deriving DecidableEq, Repr

/-- Modelled from the spec (§3): a kinship matrix owns the ordered sample-id
list, the backing N×N matrix of relatedness values (entry type `V`, rows in
order), and the variant-count metadata. -/
structure KinshipMatrix (V : Type) : Type where
  sampleIds : List String
  matrix : List (List V)
  nVariants : Nat
deriving DecidableEq, Repr

/-- Modelled from the spec (§4.1, §7): `_from_block_matrix` delegates to the
engine-side constructor, which checks `len(sampleIds) == numRows == numCols`
and signals `DimensionMismatch` otherwise. -/
def from_block_matrix {V : Type} (sampleIds : List String) (bm : List (List V))
    (nVariants : Nat) : Except KMError (KinshipMatrix V) :=
  if bm.length = sampleIds.length ∧ ∀ row ∈ bm, row.length = sampleIds.length then
    .ok ⟨sampleIds, bm, nVariants⟩
  else
    .error .DimensionMismatch

/-- A kinship matrix is well formed when its backing matrix is square with
dimension equal to the sample-id count (invariant of §3). -/
def WellFormed {V : Type} (km : KinshipMatrix V) : Prop :=
  km.matrix.length = km.sampleIds.length ∧
    ∀ row ∈ km.matrix, row.length = km.sampleIds.length

instance {V : Type} (km : KinshipMatrix V) : Decidable (WellFormed km) := by
  unfold WellFormed; infer_instance

/-- The concrete 3×3 example of §8 of the spec, with rational stand-ins for
the doubles 1, 0.2, 0.1, 0.3 and variant count 10. -/
def km3q : KinshipMatrix ℚ :=
  ⟨["A", "B", "C"],
   [[1, 1/5, 1/10], [1/5, 1, 3/10], [1/10, 3/10, 1]],
   10⟩

/-- A sample textual formatter for rational entries, used by concrete
witnesses; the codecs are proved for every formatter. -/
def ratStr (q : ℚ) : String := toString q.num ++ "/" ++ toString q.den

/-- C1: for every N, construction from an N-length id list and an N×N backing
matrix succeeds (yielding exactly the captured metadata), and a sample-id
count that disagrees with the matrix dimension fails with `DimensionMismatch`;
the error is final, no other outcome exists. -/
theorem from_block_matrix_dimension_contract {V : Type} (sampleIds : List String)
    (bm : List (List V)) (nVariants : Nat) :
    (bm.length = sampleIds.length → (∀ row ∈ bm, row.length = sampleIds.length) →
      from_block_matrix sampleIds bm nVariants = .ok ⟨sampleIds, bm, nVariants⟩) ∧
    (bm.length ≠ sampleIds.length →
      from_block_matrix sampleIds bm nVariants = .error .DimensionMismatch) ∧
    ((∃ km, from_block_matrix sampleIds bm nVariants = .ok km) ↔
      (bm.length = sampleIds.length ∧ ∀ row ∈ bm, row.length = sampleIds.length)) := by
  refine ⟨fun h1 h2 => ?_, fun h1 => ?_, ?_⟩
  · rw [from_block_matrix, if_pos ⟨h1, h2⟩]
  · simp [from_block_matrix, h1]
  · constructor
    · rintro ⟨km, hkm⟩
      by_contra hdim
      simp [from_block_matrix, hdim] at hkm
    · rintro ⟨h1, h2⟩
      exact ⟨⟨sampleIds, bm, nVariants⟩, by rw [from_block_matrix, if_pos ⟨h1, h2⟩]⟩

/-- C1 witness: on the concrete 3×3 data the constructor succeeds, and with a
2-element id list against the same 3×3 matrix it fails with
`DimensionMismatch`. -/
theorem from_block_matrix_dimension_contract_witness :
    from_block_matrix ["A", "B", "C"] km3q.matrix 10 = .ok km3q ∧
    from_block_matrix ["A", "B"] km3q.matrix 10 = .error .DimensionMismatch :=
  ⟨(from_block_matrix_dimension_contract ["A", "B", "C"] km3q.matrix 10).1
      (by decide) (by decide),
   (from_block_matrix_dimension_contract ["A", "B"] km3q.matrix 10).2.1 (by decide)⟩

/-- Modelled from the spec (§4.1 `exportTsv`): the engine-side `exportTSV`
writes a tab-delimited text document — header line of sample ids in matrix
order, then one line per sample holding that sample's full matrix row.  The
document is embedded structurally as a list of lines, each line the list of
its tab-separated fields; `fmt` is the engine's double-to-text rendering. -/
def export_tsv {V : Type} (km : KinshipMatrix V) (fmt : V → String) :
    List (List String) :=
  km.sampleIds :: km.matrix.map (List.map fmt)

/-- C2: for every well-formed kinship matrix with N samples, `exportTsv`
produces N+1 lines: the header is the sample-id list in matrix order, line
i+1 is sample i's full matrix row rendered by `fmt` (N values, full symmetric
matrix, same sample order as the header). -/
theorem export_tsv_format {V : Type} (km : KinshipMatrix V) (fmt : V → String)
    (h1 : km.matrix.length = km.sampleIds.length)
    (h2 : ∀ row ∈ km.matrix, row.length = km.sampleIds.length) :
    (export_tsv km fmt).length = km.sampleIds.length + 1 ∧
    (export_tsv km fmt).head? = some km.sampleIds ∧
    (∀ i : Nat, (export_tsv km fmt)[i + 1]? = (km.matrix[i]?).map (List.map fmt)) ∧
    (∀ line ∈ (export_tsv km fmt).tail, line.length = km.sampleIds.length) := by
  refine ⟨?_, ?_, ?_, ?_⟩
  · simp [export_tsv, h1]
  · simp [export_tsv]
  · intro i
    simp [export_tsv]
  · intro line hline
    simp only [export_tsv, List.tail_cons, List.mem_map] at hline
    obtain ⟨row, hrow, rfl⟩ := hline
    simpa using h2 row hrow

/-- C2 witness: on the spec's 3×3 example the TSV document has 4 lines,
header `["A","B","C"]` (rendered `A\tB\tC`), and three value rows of 3 fields
each. -/
theorem export_tsv_format_witness :
    (export_tsv km3q ratStr).length = 4 ∧
    (export_tsv km3q ratStr).head? = some ["A", "B", "C"] ∧
    ∀ line ∈ (export_tsv km3q ratStr).tail, line.length = 3 :=
  ⟨(export_tsv_format km3q ratStr (by decide) (by decide)).1,
   (export_tsv_format km3q ratStr (by decide) (by decide)).2.1,
   (export_tsv_format km3q ratStr (by decide) (by decide)).2.2.2⟩

/-- Modelled from the spec (§4.1 `exportRel`): the triangular row stream —
row i of the output keeps entries (i, 0..i) of matrix row i.  The index
accumulator `s` is the index of the first remaining row. -/
def relRowsAux {V : Type} : Nat → List (List V) → List (List V)
  | _, [] => []
  | s, row :: rest => row.take (s + 1) :: relRowsAux (s + 1) rest

theorem relRowsAux_length {V : Type} (s : Nat) (m : List (List V)) :
    (relRowsAux s m).length = m.length := by
  induction m generalizing s with
  | nil => simp [relRowsAux]
  | cons row rest ih => simp [relRowsAux, ih]

/-- Over rows all of length `L` starting at index `s` with `s + count ≤ L`,
the triangular rows have lengths `s+1, s+2, …`. -/
theorem relRowsAux_map_length {V : Type} (L : Nat) (m : List (List V)) :
    ∀ s : Nat, (∀ row ∈ m, row.length = L) → s + m.length ≤ L →
      (relRowsAux s m).map List.length =
        (List.range m.length).map (fun i => s + i + 1) := by
  induction m with
  | nil => intro s _ _; simp [relRowsAux]
  | cons row rest ih =>
    intro s hrows hs
    have hrow : row.length = L := hrows row (by simp)
    have hlen : (row :: rest).length = rest.length + 1 := by simp
    rw [hlen] at hs
    have htake : (row.take (s + 1)).length = s + 1 := by
      rw [List.length_take, hrow]; omega
    have hrest := ih (s + 1) (fun r hr => hrows r (by simp [hr])) (by omega)
    simp only [relRowsAux, List.map_cons, htake, hlen, List.range_succ_eq_map,
      List.map_map, hrest, List.cons.injEq, true_and]
    apply List.map_congr_left
    intro i _
    simp [Function.comp]
    omega

/-- Modelled from the spec (§4.1 `exportRel`): PLINK textual `.rel` — the
lower triangle (diagonal inclusive), one output line per sample, line i
holding entries (i,0..i) rendered by `fmt`. -/
def export_rel {V : Type} (km : KinshipMatrix V) (fmt : V → String) :
    List (List String) :=
  (relRowsAux 0 km.matrix).map (List.map fmt)

/-- C3: for every well-formed kinship matrix with N samples, `exportRel`
produces exactly N lines and line i (0-based) holds exactly i+1 values —
the PLINK textual `.rel` lower-triangular (diagonal-inclusive) layout. -/
theorem export_rel_format {V : Type} (km : KinshipMatrix V) (fmt : V → String)
    (h1 : km.matrix.length = km.sampleIds.length)
    (h2 : ∀ row ∈ km.matrix, row.length = km.sampleIds.length) :
    (export_rel km fmt).length = km.sampleIds.length ∧
    (export_rel km fmt).map List.length =
      (List.range km.sampleIds.length).map (fun i => i + 1) := by
  constructor
  · simp [export_rel, relRowsAux_length, h1]
  · have := relRowsAux_map_length km.sampleIds.length km.matrix 0 h2 (by omega)
    calc (export_rel km fmt).map List.length
        = (relRowsAux 0 km.matrix).map List.length := by
          simp [export_rel, List.map_map, Function.comp]
      _ = (List.range km.sampleIds.length).map (fun i => i + 1) := by
          rw [this, h1]
          exact List.map_congr_left (fun i _ => by omega)

/-- C3 witness: on the spec's 3×3 example `exportRel` yields 3 lines with
1, 2, 3 values respectively. -/
theorem export_rel_format_witness :
    (export_rel km3q ratStr).length = 3 ∧
    (export_rel km3q ratStr).map List.length = [1, 2, 3] :=
  ⟨(export_rel_format km3q ratStr (by decide) (by decide)).1,
   by
    have := (export_rel_format km3q ratStr (by decide) (by decide)).2
    simpa using this⟩

/-- Modelled from the spec (§4.1 `exportGctaGrmBin`): the flat stream of
lower-triangle-inclusive values in row-major (i, then j ≤ i) order, starting
at row index `s`. -/
def grmBinWordsAux {V : Type} : Nat → List (List V) → List V
  | _, [] => []
  | s, row :: rest => row.take (s + 1) ++ grmBinWordsAux (s + 1) rest

theorem grmBinWordsAux_eq_flatten {V : Type} (m : List (List V)) :
    ∀ s : Nat, grmBinWordsAux s m = (relRowsAux s m).flatten := by
  induction m with
  | nil => intro s; simp [grmBinWordsAux, relRowsAux]
  | cons row rest ih => intro s; simp [grmBinWordsAux, relRowsAux, ih]

/-- Gauss sum for the triangular row lengths `s+1, s+2, …, s+n`. -/
theorem sum_shifted_range (s n : Nat) :
    2 * ((List.range n).map (fun i => s + i + 1)).sum = n * (2 * s + n + 1) := by
  induction n with
  | zero => simp
  | succ n ih =>
    rw [List.range_succ, List.map_append, List.sum_append]
    simp only [List.map_cons, List.map_nil, List.sum_cons, List.sum_nil,
      Nat.add_zero]
    calc 2 * (((List.range n).map (fun i => s + i + 1)).sum + (s + n + 1))
        = 2 * ((List.range n).map (fun i => s + i + 1)).sum + 2 * (s + n + 1) := by
          ring
      _ = n * (2 * s + n + 1) + 2 * (s + n + 1) := by rw [ih]
      _ = (n + 1) * (2 * s + (n + 1) + 1) := by ring

/-- Under the square invariant, the triangular value stream starting at row 0
holds exactly N·(N+1)/2 entries. -/
theorem grmBinWordsAux_length {V : Type} (m : List (List V)) (L : Nat)
    (hrows : ∀ row ∈ m, row.length = L) (hm : m.length = L) :
    2 * (grmBinWordsAux 0 m).length = L * (L + 1) := by
  rw [grmBinWordsAux_eq_flatten, List.length_flatten,
    relRowsAux_map_length L m 0 hrows (by omega), hm]
  have h := sum_shifted_range 0 L
  simpa using h

/-- Modelled from the spec (§4.1 `exportGctaGrm`): the lines of one triangular
row — entry (iLab, j+1, nLab, value) per kept column j, `j` the 0-based column
accumulator. -/
def gctaRowAux {V : Type} (iLab nLab : String) (fmt : V → String) :
    Nat → List V → List (List String)
  | _, [] => []
  | j, v :: rest =>
      [iLab, toString (j + 1), nLab, fmt v] :: gctaRowAux iLab nLab fmt (j + 1) rest

theorem gctaRowAux_length {V : Type} (a b : String) (fmt : V → String)
    (l : List V) : ∀ j : Nat, (gctaRowAux a b fmt j l).length = l.length := by
  induction l with
  | nil => intro j; simp [gctaRowAux]
  | cons v rest ih => intro j; simp [gctaRowAux, ih]

theorem gctaRowAux_mem {V : Type} (a b : String) (fmt : V → String)
    (l : List V) : ∀ j : Nat, ∀ line ∈ gctaRowAux a b fmt j l,
      ∃ k v, j ≤ k ∧ k < j + l.length ∧ line = [a, toString (k + 1), b, fmt v] := by
  induction l with
  | nil => intro j line hline; simp [gctaRowAux] at hline
  | cons v rest ih =>
    intro j line hline
    simp only [gctaRowAux, List.mem_cons] at hline
    rcases hline with rfl | hline
    · exact ⟨j, v, le_rfl, by simp, rfl⟩
    · obtain ⟨k, w, hk1, hk2, hw⟩ := ih (j + 1) line hline
      exact ⟨k, w, by omega, by simp at hk2 ⊢; omega, hw⟩

/-- Modelled from the spec (§4.1 `exportGctaGrm`): GCTA `.grm` text — one
line per pair (i, j), i ≥ j, fields `i+1`, `j+1` (1-based), SNP count,
value, emitted row-major over the lower triangle starting at row `s`. -/
def gctaLinesAux {V : Type} (fmt : V → String) (nLab : String) :
    Nat → List (List V) → List (List String)
  | _, [] => []
  | s, row :: rest =>
      gctaRowAux (toString (s + 1)) nLab fmt 0 (row.take (s + 1)) ++
        gctaLinesAux fmt nLab (s + 1) rest

theorem gctaLinesAux_length {V : Type} (fmt : V → String) (nLab : String)
    (m : List (List V)) : ∀ s : Nat,
    (gctaLinesAux fmt nLab s m).length = (grmBinWordsAux s m).length := by
  induction m with
  | nil => intro s; simp [gctaLinesAux, grmBinWordsAux]
  | cons row rest ih =>
    intro s
    simp [gctaLinesAux, grmBinWordsAux, gctaRowAux_length, ih]

theorem gctaLinesAux_mem {V : Type} (fmt : V → String) (nLab : String)
    (m : List (List V)) : ∀ s : Nat, ∀ line ∈ gctaLinesAux fmt nLab s m,
      ∃ i j v, s ≤ i ∧ i < s + m.length ∧ j ≤ i ∧
        line = [toString (i + 1), toString (j + 1), nLab, fmt v] := by
  induction m with
  | nil => intro s line hline; simp [gctaLinesAux] at hline
  | cons row rest ih =>
    intro s line hline
    simp only [gctaLinesAux, List.mem_append] at hline
    rcases hline with hline | hline
    · obtain ⟨k, v, _, hk2, hv⟩ :=
        gctaRowAux_mem (toString (s + 1)) nLab fmt (row.take (s + 1)) 0 line hline
      have : k ≤ s := by
        have := List.length_take_le (s + 1) row
        omega
      exact ⟨s, k, v, le_rfl, by simp, this, hv⟩
    · obtain ⟨i, j, v, hi1, hi2, hij, hv⟩ := ih (s + 1) line hline
      exact ⟨i, j, v, by omega, by simp; omega, hij, hv⟩

/-- Modelled from the spec (§4.1 `exportGctaGrm`): GCTA `.grm` text document
for a kinship matrix — lower-triangle row-major lines with 1-based indices,
the SNP count `nVariants`, and the rendered value. -/
def export_gcta_grm {V : Type} (km : KinshipMatrix V) (fmt : V → String) :
    List (List String) :=
  gctaLinesAux fmt (toString km.nVariants) 0 km.matrix

/-- C4: for every well-formed kinship matrix with N samples and variant count
nVariants, `exportGctaGrm` writes exactly N·(N+1)/2 lines, one per pair
(i, j) with i ≥ j over the lower triangle inclusive, each line being the four
fields 1-based i, 1-based j, the SNP count, and the value. -/
theorem export_gcta_grm_format {V : Type} (km : KinshipMatrix V)
    (fmt : V → String)
    (h1 : km.matrix.length = km.sampleIds.length)
    (h2 : ∀ row ∈ km.matrix, row.length = km.sampleIds.length) :
    (export_gcta_grm km fmt).length =
      km.sampleIds.length * (km.sampleIds.length + 1) / 2 ∧
    ∀ line ∈ export_gcta_grm km fmt, line.length = 4 ∧
      ∃ i j v, j ≤ i ∧ i < km.sampleIds.length ∧
        line = [toString (i + 1), toString (j + 1), toString km.nVariants, fmt v] := by
  constructor
  · have hlen : 2 * (export_gcta_grm km fmt).length =
        km.sampleIds.length * (km.sampleIds.length + 1) := by
      rw [export_gcta_grm, gctaLinesAux_length]
      exact grmBinWordsAux_length km.matrix km.sampleIds.length h2 h1
    omega
  · intro line hline
    obtain ⟨i, j, v, _, hi2, hij, hv⟩ :=
      gctaLinesAux_mem fmt (toString km.nVariants) km.matrix 0 line hline
    refine ⟨by rw [hv]; rfl, i, j, v, hij, by omega, hv⟩

/-- C4 witness: on the spec's 3×3 example `exportGctaGrm` yields exactly 6
lines of 4 fields each. -/
theorem export_gcta_grm_format_witness :
    (export_gcta_grm km3q ratStr).length = 6 ∧
    ∀ line ∈ export_gcta_grm km3q ratStr, line.length = 4 :=
  ⟨(export_gcta_grm_format km3q ratStr (by decide) (by decide)).1,
   fun line hline =>
     ((export_gcta_grm_format km3q ratStr (by decide) (by decide)).2 line hline).1⟩

/-- Modelled from the spec (§4.1 `exportGctaGrmBin`): the `.grm.bin` payload —
the lower-triangle-inclusive values in row-major (i, then j ≤ i) order, each
written as one 32-bit float, no headers or delimiters. -/
def export_gcta_grm_bin_words {V : Type} (km : KinshipMatrix V) : List V :=
  grmBinWordsAux 0 km.matrix

/-- Modelled from the spec (§4.1 `exportGctaGrmBin`): the `.grm.N.bin`
sidecar stream written when `optNFile` is supplied — the same triangular
traversal, but emitting the constant `c` (the 32-bit float encoding of
`nVariants`) for every pair. -/
def grmNWordsAux {V : Type} (c : V) : Nat → List (List V) → List V
  | _, [] => []
  | s, row :: rest => (row.take (s + 1)).map (fun _ => c) ++ grmNWordsAux c (s + 1) rest

theorem grmNWordsAux_length {V : Type} (c : V) (m : List (List V)) :
    ∀ s : Nat, (grmNWordsAux c s m).length = (grmBinWordsAux s m).length := by
  induction m with
  | nil => intro s; simp [grmNWordsAux, grmBinWordsAux]
  | cons row rest ih => intro s; simp [grmNWordsAux, grmBinWordsAux, ih]

theorem grmNWordsAux_mem {V : Type} (c : V) (m : List (List V)) :
    ∀ s : Nat, ∀ x ∈ grmNWordsAux c s m, x = c := by
  induction m with
  | nil => intro s x hx; simp [grmNWordsAux] at hx
  | cons row rest ih =>
    intro s x hx
    simp only [grmNWordsAux, List.mem_append, List.mem_map] at hx
    rcases hx with ⟨_, _, rfl⟩ | hx
    · rfl
    · exact ih (s + 1) x hx

/-- The `.grm.N.bin` sidecar for a kinship matrix, `numV` being the numeric
embedding of the variant count into the value type. -/
def export_grm_n_words {V : Type} (km : KinshipMatrix V) (numV : Nat → V) :
    List V :=
  grmNWordsAux (numV km.nVariants) 0 km.matrix

/-- Byte length of a stream of 32-bit floats: 4 bytes per value, no headers
or delimiters (spec §4.1 `exportGctaGrmBin`). -/
def grmBinByteLength {V : Type} (words : List V) : Nat := 4 * words.length

/-- C5: for every well-formed kinship matrix with N samples,
`exportGctaGrmBin` writes the lower-triangle values in row-major triangular
order (the flattening of the `.rel` row stream) as 32-bit floats totalling
exactly 4·(N·(N+1)/2) bytes; when `optNFile` is supplied the sidecar has the
same byte length and every one of its values is `nVariants`. -/
theorem export_gcta_grm_bin_format {V : Type} (km : KinshipMatrix V)
    (numV : Nat → V)
    (h1 : km.matrix.length = km.sampleIds.length)
    (h2 : ∀ row ∈ km.matrix, row.length = km.sampleIds.length) :
    grmBinByteLength (export_gcta_grm_bin_words km) =
      4 * (km.sampleIds.length * (km.sampleIds.length + 1) / 2) ∧
    export_gcta_grm_bin_words km = (relRowsAux 0 km.matrix).flatten ∧
    grmBinByteLength (export_grm_n_words km numV) =
      4 * (km.sampleIds.length * (km.sampleIds.length + 1) / 2) ∧
    ∀ x ∈ export_grm_n_words km numV, x = numV km.nVariants := by
  have hwords := grmBinWordsAux_length km.matrix km.sampleIds.length h2 h1
  refine ⟨?_, ?_, ?_, ?_⟩
  · rw [grmBinByteLength, export_gcta_grm_bin_words]
    omega
  · exact grmBinWordsAux_eq_flatten km.matrix 0
  · rw [grmBinByteLength, export_grm_n_words, grmNWordsAux_length]
    omega
  · exact grmNWordsAux_mem (numV km.nVariants) km.matrix 0

/-- C5 witness: on the spec's 3×3 example with nVariants = 10, the `.grm.bin`
payload is 24 bytes (6 floats) and the sidecar is 24 bytes of the constant
10. -/
theorem export_gcta_grm_bin_format_witness :
    grmBinByteLength (export_gcta_grm_bin_words km3q) = 24 ∧
    grmBinByteLength (export_grm_n_words km3q (fun n => (n : ℚ))) = 24 ∧
    ∀ x ∈ export_grm_n_words km3q (fun n => (n : ℚ)), x = (10 : ℚ) :=
  ⟨(export_gcta_grm_bin_format km3q (fun n => (n : ℚ)) (by decide) (by decide)).1,
   (export_gcta_grm_bin_format km3q (fun n => (n : ℚ)) (by decide) (by decide)).2.2.1,
   (export_gcta_grm_bin_format km3q (fun n => (n : ℚ)) (by decide) (by decide)).2.2.2⟩

/-- Modelled from the spec (§4.1 `exportIdFile`): PLINK `.id` text — one line
per sample in matrix order, family-ID and individual-ID columns both equal to
the sample identifier. -/
def export_id_file {V : Type} (km : KinshipMatrix V) : List (List String) :=
  km.sampleIds.map (fun s => [s, s])

/-- C6: for every kinship matrix with N samples, `exportIdFile` writes
exactly N lines in matrix order, the line of sample i being the two identical
tab-separated columns `[idᵢ, idᵢ]`. -/
theorem export_id_file_format {V : Type} (km : KinshipMatrix V) :
    (export_id_file km).length = km.sampleIds.length ∧
    ∀ i : Nat, (export_id_file km)[i]? =
      (km.sampleIds[i]?).map (fun s => [s, s]) := by
  constructor
  · simp [export_id_file]
  · intro i
    simp [export_id_file]

/-- The Python wrapper instance (`KinshipMatrix.__init__`, src lines 15–17):
it holds the engine reference and the `_key_schema` cache slot, initialised
to `None`.  `jkmSignature` is the descriptor that
`Type._from_java(self._jkm.sampleSignature())` produces (type `T`, opaque
here), `jkmSampleIds` the engine's raw sample keys (type `K`), and
`javaCalls` counts how many times that engine conversion has been run. -/
structure KMHandle (T K : Type) : Type where
  jkmSignature : T
  jkmSampleIds : List K
  keySchemaCache : Option T
  javaCalls : Nat
deriving DecidableEq, Repr

/-- Fresh wrapper state right after `__init__`: empty cache, no engine
conversion performed yet. -/
def initHandle {T K : Type} (sig : T) (ids : List K) : KMHandle T K :=
  ⟨sig, ids, none, 0⟩

/-- The `key_schema` property (src lines 29–40): if `_key_schema is None`,
compute it from the engine (counted in `javaCalls`) and store it; then return
the stored descriptor. -/
def key_schema {T K : Type} (o : KMHandle T K) : T × KMHandle T K :=
  match o.keySchemaCache with
  | some t => (t, o)
  | none =>
      (o.jkmSignature,
       { o with keySchemaCache := some o.jkmSignature,
                javaCalls := o.javaCalls + 1 })

/-- C7: `key_schema` is lazily cached and idempotent — from an empty cache the
first access computes the descriptor (one engine conversion) and stores it,
and every further access returns the same descriptor with the state untouched
(no recomputation: `javaCalls` stays put). -/
theorem key_schema_lazy_cached {T K : Type} (o : KMHandle T K)
    (h : o.keySchemaCache = none) :
    (key_schema o).1 = o.jkmSignature ∧
    (key_schema o).2.keySchemaCache = some o.jkmSignature ∧
    (key_schema o).2.javaCalls = o.javaCalls + 1 ∧
    key_schema (key_schema o).2 = ((key_schema o).1, (key_schema o).2) := by
  simp [key_schema, h]

/-- C7 witness: a fresh handle with descriptor `"TString"` — first access
returns and stores `"TString"` with one engine conversion, and the second
access changes nothing. -/
theorem key_schema_lazy_cached_witness :
    (key_schema (initHandle "TString" ["A", "B"])).1 = "TString" ∧
    (key_schema (initHandle "TString" ["A", "B"])).2.keySchemaCache = some "TString" ∧
    (key_schema (initHandle "TString" ["A", "B"])).2.javaCalls = 0 + 1 ∧
    key_schema (key_schema (initHandle "TString" ["A", "B"])).2 =
      ((key_schema (initHandle "TString" ["A", "B"])).1,
       (key_schema (initHandle "TString" ["A", "B"])).2) :=
  key_schema_lazy_cached (initHandle "TString" ["A", "B"]) (by decide)

/-- A handle whose cache is either empty or holds exactly the descriptor the
engine would produce — every state reachable from `__init__` satisfies
this. -/
def ValidCache {T K : Type} (o : KMHandle T K) : Prop :=
  o.keySchemaCache = none ∨ o.keySchemaCache = some o.jkmSignature

/-- `sample_list` (src lines 42–50): map the external-representation
converter of the `key_schema` descriptor over the engine's raw sample keys,
in order. -/
def sample_list {T K : Type} (convert : T → K → String) (o : KMHandle T K) :
    List String × KMHandle T K :=
  ((key_schema o).2.jkmSampleIds.map (convert (key_schema o).1),
   (key_schema o).2)

theorem key_schema_preserves {T K : Type} (o : KMHandle T K) :
    (key_schema o).2.jkmSignature = o.jkmSignature ∧
    (key_schema o).2.jkmSampleIds = o.jkmSampleIds := by
  cases h : o.keySchemaCache <;> simp [key_schema, h]

theorem key_schema_valid {T K : Type} (o : KMHandle T K)
    (h : ValidCache o) :
    (key_schema o).1 = o.jkmSignature ∧ ValidCache (key_schema o).2 := by
  rcases h with h | h <;> simp [key_schema, h, ValidCache]

/-- C8: `sample_list` is observationally pure and order preserving — on any
reachable handle its value is exactly the stored keys converted in order
through the schema's converter (independent of the cache state), two
successive calls return identical order-stable lists, and the second call
leaves the state exactly where the first left it. -/
theorem sample_list_pure {T K : Type} (convert : T → K → String)
    (o : KMHandle T K) (h : ValidCache o) :
    (sample_list convert o).1 = o.jkmSampleIds.map (convert o.jkmSignature) ∧
    (sample_list convert (sample_list convert o).2).1 = (sample_list convert o).1 ∧
    (sample_list convert (sample_list convert o).2).2 = (sample_list convert o).2 := by
  obtain ⟨hsig, hids⟩ := key_schema_preserves o
  obtain ⟨hval, hvalid⟩ := key_schema_valid o h
  have hcached : (key_schema o).2.keySchemaCache = some o.jkmSignature := by
    rcases h with h | h <;> simp [key_schema, h]
  have hsecond : key_schema (key_schema o).2 = ((key_schema o).1, (key_schema o).2) := by
    rcases h with h | h <;> simp [key_schema, h]
  refine ⟨?_, ?_, ?_⟩
  · rw [sample_list, hids, hval]
  · simp [sample_list, hsecond]
  · simp [sample_list, hsecond]

/-- C8 witness: on a fresh handle with converter prepending `"s:"`, the list
is `["s:A", "s:B"]`, and the repeated call returns the same list with the
same final state. -/
theorem sample_list_pure_witness :
    (sample_list (fun t k => t ++ ":" ++ k) (initHandle "s" ["A", "B"])).1 =
      ["s:A", "s:B"] ∧
    (sample_list (fun t k => t ++ ":" ++ k)
        (sample_list (fun t k => t ++ ":" ++ k) (initHandle "s" ["A", "B"])).2).1 =
      (sample_list (fun t k => t ++ ":" ++ k) (initHandle "s" ["A", "B"])).1 ∧
    (sample_list (fun t k => t ++ ":" ++ k)
        (sample_list (fun t k => t ++ ":" ++ k) (initHandle "s" ["A", "B"])).2).2 =
      (sample_list (fun t k => t ++ ":" ++ k) (initHandle "s" ["A", "B"])).2 :=
  sample_list_pure (fun t k => t ++ ":" ++ k) (initHandle "s" ["A", "B"])
    (Or.inl rfl)

/-- On-disk content of a written file: a text document (lines of fields) or
a binary stream of 32-bit float values. -/
inductive FileData (V : Type) : Type where
  | text (lines : List (List String)) : FileData V
  | bin (words : List V) : FileData V
deriving DecidableEq, Repr

/-- A file system: path to content, `none` where no file exists. -/
def FS (V : Type) : Type := String → Option (FileData V)

/-- The empty file system. -/
def emptyFS (V : Type) : FS V := fun _ => none

/-- Create or overwrite one file. -/
def writeFile {V : Type} (fs : FS V) (path : String) (d : FileData V) : FS V :=
  fun p => if p = path then some d else fs p

/-- Path of the provenance file documented in every export's docstring. -/
def historyPath (output : String) : String := output ++ ".history.txt"

/-- From the source (the `@write_history('output')` decorator on every export
and the docstrings, e.g. src lines 68–73: "A text file containing the python
code to generate this output file is available at `<output>.history.txt`"):
calling an export also writes a provenance text file at
`<output>.history.txt`; its content (the generating Python code) is opaque
here. -/
def writeHistory {V : Type} (fs : FS V) (output : String) : FS V :=
  writeFile fs (historyPath output) (.text [["history"]])

/-- The full effect of calling `export_tsv` (decorated method, src lines
62–77): write the provenance file, write the TSV document at `output`, and
return the untouched instance. -/
def export_tsv_call {V : Type} (km : KinshipMatrix V) (fmt : V → String)
    (output : String) (fs : FS V) : KinshipMatrix V × FS V :=
  (km, writeFile (writeHistory fs output) output (.text (export_tsv km fmt)))

/-- The full effect of calling `export_rel` (src lines 79–92). -/
def export_rel_call {V : Type} (km : KinshipMatrix V) (fmt : V → String)
    (output : String) (fs : FS V) : KinshipMatrix V × FS V :=
  (km, writeFile (writeHistory fs output) output (.text (export_rel km fmt)))

/-- The full effect of calling `export_gcta_grm` (src lines 94–107). -/
def export_gcta_grm_call {V : Type} (km : KinshipMatrix V) (fmt : V → String)
    (output : String) (fs : FS V) : KinshipMatrix V × FS V :=
  (km, writeFile (writeHistory fs output) output (.text (export_gcta_grm km fmt)))

/-- The full effect of calling `export_id_file` (src lines 128–141). -/
def export_id_file_call {V : Type} (km : KinshipMatrix V) (output : String)
    (fs : FS V) : KinshipMatrix V × FS V :=
  (km, writeFile (writeHistory fs output) output (.text (export_id_file km)))

/-- The full effect of calling `export_gcta_grm_bin` (src lines 109–126):
provenance file, `.grm.bin` payload at `output`, and — when `opt_n_file` is
supplied — the `.grm.N.bin` sidecar at that path. -/
def export_gcta_grm_bin_call {V : Type} (km : KinshipMatrix V)
    (numV : Nat → V) (output : String) (optN : Option String) (fs : FS V) :
    KinshipMatrix V × FS V :=
  let fs2 := writeFile (writeHistory fs output) output
    (.bin (export_gcta_grm_bin_words km))
  match optN with
  | none => (km, fs2)
  | some nPath => (km, writeFile fs2 nPath (.bin (export_grm_n_words km numV)))

/-- C9 counterexample: the effect of an export is NOT confined to its output
path (plus sidecar) — exporting the 3×3 example as TSV to `"out"` over the
empty file system also creates `"out.history.txt"`, a path distinct from the
output path. -/
theorem export_tsv_call_history_effect :
    (export_tsv_call km3q ratStr "out" (emptyFS ℚ)).2 "out.history.txt" ≠
      emptyFS ℚ "out.history.txt" ∧
    "out.history.txt" ≠ "out" := by
  constructor
  · intro h
    rw [show (export_tsv_call km3q ratStr "out" (emptyFS ℚ)).2 "out.history.txt" =
        some (.text [["history"]]) from rfl] at h
    exact Option.noConfusion (h.trans rfl)
  · decide

/-- C9 amended: every export's file-system effect is confined to its output
path, the optional `.grm.N.bin` sidecar, and the `<output>.history.txt`
provenance file written by the `write_history` decorator; no export mutates
the kinship-matrix value — every call returns the instance unchanged. -/
theorem export_calls_frame {V : Type} (km : KinshipMatrix V)
    (fmt : V → String) (numV : Nat → V) (output : String)
    (optN : Option String) (fs : FS V) (p : String)
    (hp1 : p ≠ output) (hp2 : p ≠ historyPath output)
    (hp3 : ∀ q ∈ optN, p ≠ q) :
    ((export_tsv_call km fmt output fs).1 = km ∧
      (export_tsv_call km fmt output fs).2 p = fs p) ∧
    ((export_rel_call km fmt output fs).1 = km ∧
      (export_rel_call km fmt output fs).2 p = fs p) ∧
    ((export_gcta_grm_call km fmt output fs).1 = km ∧
      (export_gcta_grm_call km fmt output fs).2 p = fs p) ∧
    ((export_id_file_call km output fs).1 = km ∧
      (export_id_file_call km output fs).2 p = fs p) ∧
    ((export_gcta_grm_bin_call km numV output optN fs).1 = km ∧
      (export_gcta_grm_bin_call km numV output optN fs).2 p = fs p) := by
  refine ⟨⟨rfl, ?_⟩, ⟨rfl, ?_⟩, ⟨rfl, ?_⟩, ⟨rfl, ?_⟩, ?_⟩ <;>
    first
      | simp [export_tsv_call, export_rel_call, export_gcta_grm_call,
          export_id_file_call, writeFile, writeHistory, hp1, hp2]
      | skip
  cases optN with
  | none =>
    exact ⟨rfl, by
      simp [export_gcta_grm_bin_call, writeFile, writeHistory, hp1, hp2]⟩
  | some nPath =>
    have hpn : p ≠ nPath := hp3 nPath (by simp)
    exact ⟨rfl, by
      simp [export_gcta_grm_bin_call, writeFile, writeHistory, hp1, hp2, hpn]⟩

/-- C9 witness: exporting the 3×3 example to `"out"` with sidecar `"outN"`
over the empty file system leaves the unrelated path `"zzz"` untouched across
all five exports, each of which returns the instance unchanged. -/
theorem export_calls_frame_witness :
    ((export_tsv_call km3q ratStr "out" (emptyFS ℚ)).1 = km3q ∧
      (export_tsv_call km3q ratStr "out" (emptyFS ℚ)).2 "zzz" = emptyFS ℚ "zzz") ∧
    ((export_rel_call km3q ratStr "out" (emptyFS ℚ)).1 = km3q ∧
      (export_rel_call km3q ratStr "out" (emptyFS ℚ)).2 "zzz" = emptyFS ℚ "zzz") ∧
    ((export_gcta_grm_call km3q ratStr "out" (emptyFS ℚ)).1 = km3q ∧
      (export_gcta_grm_call km3q ratStr "out" (emptyFS ℚ)).2 "zzz" = emptyFS ℚ "zzz") ∧
    ((export_id_file_call km3q "out" (emptyFS ℚ)).1 = km3q ∧
      (export_id_file_call km3q "out" (emptyFS ℚ)).2 "zzz" = emptyFS ℚ "zzz") ∧
    ((export_gcta_grm_bin_call km3q (fun n => (n : ℚ)) "out" (some "outN")
        (emptyFS ℚ)).1 = km3q ∧
      (export_gcta_grm_bin_call km3q (fun n => (n : ℚ)) "out" (some "outN")
        (emptyFS ℚ)).2 "zzz" = emptyFS ℚ "zzz") :=
  export_calls_frame km3q ratStr (fun n => (n : ℚ)) "out" (some "outN")
    (emptyFS ℚ) "zzz" (by decide) (by decide) (by decide)

/-- A Python argument value as seen by the type-check decorators. -/
inductive PyVal : Type where
  | pyStr (s : String) : PyVal
  | pyInt (n : Int) : PyVal
  | pyNone : PyVal
deriving DecidableEq, Repr

/-- The `strlike` checker of the typecheck package: accepts string values
only. -/
def strlike : PyVal → Bool
  | .pyStr _ => true
  | _ => false

/-- The `nullable` checker combinator: accepts `None` or whatever the inner
checker accepts. -/
def nullable (c : PyVal → Bool) : PyVal → Bool := fun v =>
  match v with
  | .pyNone => true
  | _ => c v

/-- Extract the string payload of a checked string argument. -/
def asStr : PyVal → String
  | .pyStr s => s
  | _ => ""

/-- Extract the optional string payload of a checked `nullable(strlike)`
argument (the Python `joption`). -/
def asOptStr : PyVal → Option String
  | .pyStr s => some s
  | _ => none

/-- The error a failed argument check raises. -/
inductive TypeCheckFailure : Type where
  | argTypeError : TypeCheckFailure
deriving DecidableEq, Repr

/-- Modelled from the spec (§1 "parameter type-checking decorators") and the
visible decorator stack (`@typecheck_method` wraps `@write_history` wraps the
body, so checks run at call time before anything else): a one-argument
`typecheck_method` wrapper validates the argument and only then invokes the
wrapped method; on failure it raises, returning the state untouched. -/
def typecheck1 {A : Type} (check : PyVal → Bool) (inner : PyVal → A → A)
    (v : PyVal) (st : A) : Option TypeCheckFailure × A :=
  if check v then (none, inner v st) else (some .argTypeError, st)

/-- The two-argument `typecheck_method` wrapper (used by
`export_gcta_grm_bin`). -/
def typecheck2 {A : Type} (c1 c2 : PyVal → Bool)
    (inner : PyVal → PyVal → A → A) (v1 v2 : PyVal) (st : A) :
    Option TypeCheckFailure × A :=
  if c1 v1 && c2 v2 then (none, inner v1 v2 st) else (some .argTypeError, st)

/-- `export_tsv` as called from Python: `@typecheck_method(output=strlike)`
around the exporting body. -/
def export_tsv_checked {V : Type} (fmt : V → String) (output : PyVal)
    (st : KinshipMatrix V × FS V) :
    Option TypeCheckFailure × (KinshipMatrix V × FS V) :=
  typecheck1 strlike (fun v s => export_tsv_call s.1 fmt (asStr v) s.2) output st

/-- `export_rel` as called from Python. -/
def export_rel_checked {V : Type} (fmt : V → String) (output : PyVal)
    (st : KinshipMatrix V × FS V) :
    Option TypeCheckFailure × (KinshipMatrix V × FS V) :=
  typecheck1 strlike (fun v s => export_rel_call s.1 fmt (asStr v) s.2) output st

/-- `export_gcta_grm` as called from Python. -/
def export_gcta_grm_checked {V : Type} (fmt : V → String) (output : PyVal)
    (st : KinshipMatrix V × FS V) :
    Option TypeCheckFailure × (KinshipMatrix V × FS V) :=
  typecheck1 strlike (fun v s => export_gcta_grm_call s.1 fmt (asStr v) s.2)
    output st

/-- `export_id_file` as called from Python. -/
def export_id_file_checked {V : Type} (output : PyVal)
    (st : KinshipMatrix V × FS V) :
    Option TypeCheckFailure × (KinshipMatrix V × FS V) :=
  typecheck1 strlike (fun v s => export_id_file_call s.1 (asStr v) s.2)
    output st

/-- `export_gcta_grm_bin` as called from Python:
`@typecheck_method(output=strlike, opt_n_file=nullable(strlike))`. -/
def export_gcta_grm_bin_checked {V : Type} (numV : Nat → V)
    (output optN : PyVal) (st : KinshipMatrix V × FS V) :
    Option TypeCheckFailure × (KinshipMatrix V × FS V) :=
  typecheck2 strlike (nullable strlike)
    (fun v1 v2 s => export_gcta_grm_bin_call s.1 numV (asStr v1) (asOptStr v2) s.2)
    output optN st

/-- C10: every export rejects a non-string `output` (and
`export_gcta_grm_bin` an `opt_n_file` that is neither a string nor `None`)
with a type-check error raised by the wrapper before any delegation or file
write: the instance and the file system come back exactly as they were. -/
theorem export_checked_type_errors {V : Type} (fmt : V → String)
    (numV : Nat → V) (st : KinshipMatrix V × FS V) (output optN : PyVal)
    (hout : strlike output = false) :
    export_tsv_checked fmt output st = (some .argTypeError, st) ∧
    export_rel_checked fmt output st = (some .argTypeError, st) ∧
    export_gcta_grm_checked fmt output st = (some .argTypeError, st) ∧
    export_id_file_checked output st = (some .argTypeError, st) ∧
    export_gcta_grm_bin_checked numV output optN st = (some .argTypeError, st) ∧
    ∀ goodOut : PyVal, nullable strlike optN = false →
      export_gcta_grm_bin_checked numV goodOut optN st =
        (some .argTypeError, st) := by
  refine ⟨?_, ?_, ?_, ?_, ?_, ?_⟩
  · simp [export_tsv_checked, typecheck1, hout]
  · simp [export_rel_checked, typecheck1, hout]
  · simp [export_gcta_grm_checked, typecheck1, hout]
  · simp [export_id_file_checked, typecheck1, hout]
  · simp [export_gcta_grm_bin_checked, typecheck2, hout]
  · intro goodOut hN
    simp [export_gcta_grm_bin_checked, typecheck2, hN]

/-- C10 witness: passing the integer `3` as `output` (or the integer `7` as
`opt_n_file`) makes every checked export return the type-check error with
the concrete state `(km3q, empty fs)` untouched. -/
theorem export_checked_type_errors_witness :
    export_tsv_checked ratStr (.pyInt 3) (km3q, emptyFS ℚ) =
      (some .argTypeError, (km3q, emptyFS ℚ)) ∧
    export_rel_checked ratStr (.pyInt 3) (km3q, emptyFS ℚ) =
      (some .argTypeError, (km3q, emptyFS ℚ)) ∧
    export_gcta_grm_checked ratStr (.pyInt 3) (km3q, emptyFS ℚ) =
      (some .argTypeError, (km3q, emptyFS ℚ)) ∧
    export_id_file_checked (.pyInt 3) (km3q, emptyFS ℚ) =
      (some .argTypeError, (km3q, emptyFS ℚ)) ∧
    export_gcta_grm_bin_checked (fun n => (n : ℚ)) (.pyInt 3) (.pyInt 7)
        (km3q, emptyFS ℚ) = (some .argTypeError, (km3q, emptyFS ℚ)) ∧
    ∀ goodOut : PyVal, nullable strlike (.pyInt 7) = false →
      export_gcta_grm_bin_checked (fun n => (n : ℚ)) goodOut (.pyInt 7)
        (km3q, emptyFS ℚ) = (some .argTypeError, (km3q, emptyFS ℚ)) :=
  export_checked_type_errors ratStr (fun n => (n : ℚ)) (km3q, emptyFS ℚ)
    (.pyInt 3) (.pyInt 7) (by decide)
